import Mathlib

/-!
Verification of the structural-columns calculation core
(`structural_columns/columns.py` and `sample_app_module.py`).

Python floats are modelled as real numbers.  Operations that can raise a
Python ZeroDivisionError are modelled twice: a total real-valued version
(Lean division, total), and an Except-valued version in which every float
division checks its divisor, mirroring the exception behaviour.
Python dicts returned to callers are modelled as association lists, and the
string-keyed axis dispatch that can leave a Python local unbound is modelled
with Option.
-/

namespace StructuralColumns

noncomputable section

/-- The Load dataclass of columns.py: five scalar load components. -/
structure Load where
  D : ℝ
  L : ℝ
  S : ℝ
  W : ℝ
  E : ℝ

/-- The Column dataclass of columns.py: geometry and material data. -/
structure Column where
  height : ℝ
  area : ℝ
  Ix : ℝ
  Iy : ℝ
  kx : ℝ
  ky : ℝ
  E : ℝ

/-- The SteelColumn dataclass of columns.py, extending Column.  The source
declares phi with default value 0.9; here it is an explicit field and the
call sites that rely on the default pass 0.9. -/
structure SteelColumn extends Column where
  column_tag : String
  fy : ℝ
  axial_loads : Load
  phi : ℝ

/-- Free function radius_of_gyration(I, A) = sqrt(I / A) of columns.py. -/
def radius_of_gyration (I A : ℝ) : ℝ :=
  Real.sqrt (I / A)

/-- Free function eulerbucklingload(E, I, k, L) = (pi**2 * E * I) / (k * L**2). -/
def eulerbucklingload (E I k L : ℝ) : ℝ :=
  (Real.pi ^ 2 * E * I) / (k * L ^ 2)

/-- The Python str.lower() used by the axis dispatch (the axis labels in
play are ASCII). -/
def pyLower (s : String) : String :=
  String.mk (s.data.map Char.toLower)

/-- Column.radius_of_gyration(axis): dispatch on axis.lower().  When the axis
is neither x nor y, the Python local r is never bound and the result is
undefined; that case is modelled as none. -/
def Column.radius_of_gyration (self : Column) (axis : String) : Option ℝ :=
  if pyLower axis = "x" then
    some (StructuralColumns.radius_of_gyration self.Ix self.area)
  else if pyLower axis = "y" then
    some (StructuralColumns.radius_of_gyration self.Iy self.area)
  else
    none

/-- Column.euler_buckling_load(axis): dispatch on axis.lower(), undefined
(none) for any other axis label. -/
def Column.euler_buckling_load (self : Column) (axis : String) : Option ℝ :=
  if pyLower axis = "x" then
    some (eulerbucklingload self.E self.Ix self.kx self.height)
  else if pyLower axis = "y" then
    some (eulerbucklingload self.E self.Iy self.ky self.height)
  else
    none

/-- The list of the four factored load combinations built by
max_factored_load in columns.py. -/
def factored_load_list (load : Load) : List ℝ :=
  [1.4 * load.D,
   1.25 * load.D + 1.5 * load.L,
   1.25 * load.D + 1.5 * load.L + 1.0 * load.S,
   1.25 * load.D + 1.5 * load.S + 1.0 * load.L]

/-- Python builtin max over a nonempty list of floats (the empty case is
unreachable at the single call site). -/
def pymax : List ℝ → ℝ
  | [] => 0
  | x :: xs => xs.foldl max x

/-- max_factored_load(load) of columns.py: max over the four combinations. -/
def max_factored_load (load : Load) : ℝ :=
  pymax (factored_load_list load)

/-- factored_axial_capacity of columns.py, total-real version: every float
division is Lean real division. -/
def factored_axial_capacity (area I_x I_y k_x k_y L E f_y n phi : ℝ) : ℝ :=
  let P_E_x := eulerbucklingload E I_x k_x L
  let F_e_x := P_E_x / area
  let P_E_y := eulerbucklingload E I_y k_y L
  let F_e_y := P_E_y / area
  let F_e := min F_e_x F_e_y
  let lamb := Real.sqrt (f_y / F_e)
  phi * area * f_y * ((1 + lamb ^ (2 * n)) ^ (-1 / n))

/-- A float division as Python performs it: raises ZeroDivisionError when
the divisor is zero. -/
def divE (a b : ℝ) : Except String ℝ :=
  if b = 0 then Except.error "ZeroDivisionError" else Except.ok (a / b)

/-- math.sqrt as Python performs it: raises ValueError (math domain error)
on a negative argument. -/
def pySqrtE (x : ℝ) : Except String ℝ :=
  if x < 0 then Except.error "ValueError" else Except.ok (Real.sqrt x)

/-- Python float exponentiation x ** y: raises ZeroDivisionError when a
zero base is raised to a negative power.  (A negative base with a
non-integer exponent yields a complex number in Python; that case is
unreachable at the call sites below, whose bases are a successful sqrt and
one plus a nonnegative power.) -/
def pyPowE (x y : ℝ) : Except String ℝ :=
  if x = 0 ∧ y < 0 then Except.error "ZeroDivisionError" else Except.ok (x ^ y)

/-- eulerbucklingload with the Python division failure made explicit. -/
def eulerbucklingloadE (E I k L : ℝ) : Except String ℝ :=
  divE (Real.pi ^ 2 * E * I) (k * L ^ 2)

/-- factored_axial_capacity with every Python failure made explicit, in the
evaluation order of the source: the two Euler loads and elastic stresses,
the slenderness division f_y / F_e, the sqrt (ValueError when its argument
is negative), then on the final line lamb ** (2 n) first, -1 / n second
(ZeroDivisionError at n = 0), and the outer power last.  Errors propagate
through the monad exactly as Python exceptions propagate uncaught. -/
def factored_axial_capacityE (area I_x I_y k_x k_y L E f_y n phi : ℝ) :
    Except String ℝ := do
  let P_E_x ← eulerbucklingloadE E I_x k_x L
  let F_e_x ← divE P_E_x area
  let P_E_y ← eulerbucklingloadE E I_y k_y L
  let F_e_y ← divE P_E_y area
  let F_e := min F_e_x F_e_y
  let r ← divE f_y F_e
  let lamb ← pySqrtE r
  let t ← pyPowE lamb (2 * n)
  let ex ← divE (-1) n
  let w ← pyPowE (1 + t) ex
  return phi * area * f_y * w

/-- SteelColumn.factored_axial_load(): max_factored_load on the applied
loads. -/
def SteelColumn.factored_axial_load (self : SteelColumn) : ℝ :=
  max_factored_load self.axial_loads

/-- SteelColumn.factored_axial_capacity(n): the source method passes only
nine arguments to the free function, omitting phi, so the free function
default phi = 0.9 is always used and the phi field of self is ignored. -/
def SteelColumn.factored_axial_capacity (self : SteelColumn) (n : ℝ) : ℝ :=
  StructuralColumns.factored_axial_capacity self.area self.Ix self.Iy
    self.kx self.ky self.height self.E self.fy n 0.9

/-- SteelColumn.factored_axial_capacity(n), Except version; like the source
method it omits phi, so the default 0.9 is used and self.phi is ignored. -/
def SteelColumn.factored_axial_capacityE (self : SteelColumn) (n : ℝ) :
    Except String ℝ :=
  StructuralColumns.factored_axial_capacityE self.area self.Ix self.Iy
    self.kx self.ky self.height self.E self.fy n 0.9

/-- SteelColumn.factored_dcr(n) = factored_axial_load / factored_axial_capacity(n),
with the final Python division failure made explicit: a zero capacity raises
ZeroDivisionError, and a failure inside the capacity computation propagates. -/
def SteelColumn.factored_dcrE (self : SteelColumn) (n : ℝ) :
    Except String ℝ := do
  let c ← self.factored_axial_capacityE n
  divE self.factored_axial_load c

/-- The Python builtin range(start, stop, step) as a list of integers, for a
positive step (the only way the repository calls it): all values
start, start + step, start + 2 step, ... that are strictly below stop. -/
def pyRangePos (start stop step : ℤ) : List ℤ :=
  if h : 0 < step ∧ start < stop then
    start :: pyRangePos (start + step) stop step
  else
    []
termination_by (stop - start).toNat
decreasing_by
  simp_wf
  omega

/-- column_pr_over_height_range of sample_app_module.py.  The source builds
one SteelColumn with kx = ky = 1, zero loads and the dataclass default
phi = 0.9, overwrites its height with each value of
range(min_height, max_height, interval), and collects
factored_axial_capacity(1.34) at each height in a loop; the first exception
raised inside the loop (for example a zero sweep height) aborts the whole
call, which mapM in the Except monad reproduces. -/
def column_pr_over_height_range (min_height max_height interval : ℤ)
    (column_tag : String) (area i_x i_y E fy : ℝ) :
    Except String (List ℤ × List ℝ) := do
  let x_values := pyRangePos min_height max_height interval
  let y_values ← x_values.mapM (fun (x : ℤ) =>
    SteelColumn.factored_axial_capacityE
      (SteelColumn.mk
        (Column.mk (x : ℝ) area i_x i_y 1 1 E)
        column_tag fy (Load.mk 0 0 0 0 0) 0.9)
      1.34)
  return (x_values, y_values)

/-- compare_two_columns of sample_app_module.py.  The returned Python dict
is modelled as an association list; the source keys it with the lowercase
strings "a" and "b".  An exception in either sweep aborts the call before
any dict is built. -/
def compare_two_columns (min_height max_height interval : ℤ)
    (area_a i_x_a i_y_a E_a fy_a area_b i_x_b i_y_b E_b fy_b : ℝ) :
    Except String (List (String × (List ℤ × List ℝ))) := do
  let res_a ← column_pr_over_height_range min_height max_height interval
    "Column A" area_a i_x_a i_y_a E_a fy_a
  let res_b ← column_pr_over_height_range min_height max_height interval
    "Column B" area_b i_x_b i_y_b E_b fy_b
  return [("a", res_a), ("b", res_b)]

end

/-! Reduction lemmas for the Except monad used by the fallible versions. -/

theorem except_ok_bind {α β : Type} (a : α) (f : α → Except String β) :
    (Except.ok a : Except String α) >>= f = f a := rfl

theorem except_error_bind {α β : Type} (e : String) (f : α → Except String β) :
    (Except.error e : Except String α) >>= f = Except.error e := rfl

theorem except_map_ok {α β : Type} (f : α → β) (a : α) :
    f <$> (Except.ok a : Except String α) = Except.ok (f a) := rfl

theorem except_map_error {α β : Type} (f : α → β) (e : String) :
    f <$> (Except.error e : Except String α) = Except.error e := rfl

/-! Characterization lemmas for the range sweep. -/

theorem pyRangePos_mem (a b s x : ℤ) (hs : 0 < s) :
    x ∈ pyRangePos a b s ↔ ∃ i : ℕ, x = a + (i : ℤ) * s ∧ x < b := by
  rw [pyRangePos]
  split
  case isTrue h =>
    have ih := pyRangePos_mem (a + s) b s x hs
    simp only [List.mem_cons, ih]
    constructor
    · rintro (rfl | ⟨i, hx, hlt⟩)
      · exact ⟨0, by simp, h.2⟩
      · refine ⟨i + 1, ?_, hlt⟩
        rw [hx]; push_cast; ring
    · rintro ⟨i, hx, hlt⟩
      cases i with
      | zero => left; simpa using hx
      | succ j =>
        right
        refine ⟨j, ?_, hlt⟩
        rw [hx]; push_cast; ring
  case isFalse h =>
    constructor
    · intro hx
      exact absurd hx (List.not_mem_nil x)
    · rintro ⟨i, hx, hlt⟩
      have hba : b ≤ a := by omega
      have hnn : (0 : ℤ) ≤ (i : ℤ) * s := mul_nonneg (Int.natCast_nonneg i) hs.le
      exfalso
      linarith [hx ▸ hlt]
termination_by (b - a).toNat
decreasing_by
  simp_wf
  omega

theorem pyRangePos_eq_map (a b s : ℤ) (hs : 0 < s) :
    pyRangePos a b s
      = (List.range (pyRangePos a b s).length).map (fun (i : ℕ) => a + (i : ℤ) * s) := by
  rw [pyRangePos]
  split
  case isTrue h =>
    have ih := pyRangePos_eq_map (a + s) b s hs
    simp only [List.length_cons, List.range_succ_eq_map, List.map_cons,
      List.map_map, List.cons.injEq]
    refine ⟨by simp, ?_⟩
    conv_lhs => rw [ih]
    apply List.map_congr_left
    intro i hi
    simp only [Function.comp_apply]
    push_cast
    ring
  case isFalse h =>
    simp
termination_by (b - a).toNat
decreasing_by
  simp_wf
  omega

theorem pyRangePos_length (a b s : ℤ) (hs : 0 < s) :
    ((pyRangePos a b s).length : ℤ)
      = max 0 ⌈((b : ℚ) - (a : ℚ)) / ((s : ℚ))⌉ := by
  have hs0 : (s : ℚ) ≠ 0 := by exact_mod_cast hs.ne'
  have hsq : (0 : ℚ) < (s : ℚ) := by exact_mod_cast hs
  rw [pyRangePos]
  split
  case isTrue h =>
    have ih := pyRangePos_length (a + s) b s hs
    push_cast at ih
    have e1 : (b : ℚ) - (a : ℚ) = ((b : ℚ) - ((a : ℚ) + (s : ℚ))) + (s : ℚ) := by
      ring
    have hQ : ((b : ℚ) - (a : ℚ)) / (s : ℚ)
        = ((b : ℚ) - ((a : ℚ) + (s : ℚ))) / (s : ℚ) + 1 := by
      rw [e1, add_div, div_self hs0]
    have hceil : ⌈((b : ℚ) - (a : ℚ)) / (s : ℚ)⌉
        = ⌈((b : ℚ) - ((a : ℚ) + (s : ℚ))) / (s : ℚ)⌉ + 1 := by
      rw [hQ, Int.ceil_add_one]
    have hq : ((-1 : ℤ) : ℚ) < ((b : ℚ) - ((a : ℚ) + (s : ℚ))) / (s : ℚ) := by
      rw [lt_div_iff₀ hsq]
      have hab : (a : ℚ) < (b : ℚ) := by exact_mod_cast h.2
      push_cast
      linarith
    have hnn : 0 ≤ ⌈((b : ℚ) - ((a : ℚ) + (s : ℚ))) / (s : ℚ)⌉ := by
      have := Int.lt_ceil.mpr hq
      omega
    simp only [List.length_cons]
    push_cast
    omega
  case isFalse h =>
    have hba : b ≤ a := by omega
    have hnp : ((b : ℚ) - (a : ℚ)) / (s : ℚ) ≤ 0 := by
      apply div_nonpos_of_nonpos_of_nonneg
      · have : (b : ℚ) ≤ (a : ℚ) := by exact_mod_cast hba
        linarith
      · exact hsq.le
    have hc0 : ⌈((b : ℚ) - (a : ℚ)) / (s : ℚ)⌉ ≤ 0 :=
      Int.ceil_le.mpr (by exact_mod_cast hnp)
    simp only [List.length_nil]
    omega
termination_by (b - a).toNat
decreasing_by
  simp_wf
  omega

/-- mapM in the Except monad succeeds with the pointwise values when every
element succeeds. -/
theorem except_mapM_ok {α β : Type} (f : α → Except String β) (g : α → β)
    (l : List α) (h : ∀ x ∈ l, f x = Except.ok (g x)) :
    l.mapM f = Except.ok (l.map g) := by
  induction l with
  | nil => rfl
  | cons a t ih =>
    rw [List.mapM_cons, h a (List.mem_cons_self a t),
      ih (fun x hx => h x (List.mem_cons_of_mem a hx)), List.map_cons]
    rfl

/-- On inputs where none of the Python failure conditions holds (nonzero
area, effective length factors and height, nonzero governing stress,
nonnegative sqrt argument, nonzero n, and no zero lambda raised to a
negative power), the fallible capacity computation succeeds and agrees with
the total real model. -/
theorem factored_axial_capacityE_ok (area Ix Iy kx ky L E fy n phi : ℝ)
    (ha : area ≠ 0) (hkx : kx ≠ 0) (hky : ky ≠ 0) (hL : L ≠ 0)
    (hFe : min (Real.pi ^ 2 * E * Ix / (kx * L ^ 2) / area)
               (Real.pi ^ 2 * E * Iy / (ky * L ^ 2) / area) ≠ 0)
    (hr : 0 ≤ fy / min (Real.pi ^ 2 * E * Ix / (kx * L ^ 2) / area)
               (Real.pi ^ 2 * E * Iy / (ky * L ^ 2) / area))
    (hn : n ≠ 0)
    (hzn : ¬(Real.sqrt (fy / min (Real.pi ^ 2 * E * Ix / (kx * L ^ 2) / area)
               (Real.pi ^ 2 * E * Iy / (ky * L ^ 2) / area)) = 0 ∧ 2 * n < 0)) :
    factored_axial_capacityE area Ix Iy kx ky L E fy n phi
      = Except.ok (factored_axial_capacity area Ix Iy kx ky L E fy n phi) := by
  have hx : kx * L ^ 2 ≠ 0 := mul_ne_zero hkx (pow_ne_zero _ hL)
  have hy : ky * L ^ 2 ≠ 0 := mul_ne_zero hky (pow_ne_zero _ hL)
  have hr2 : ¬(fy / min (Real.pi ^ 2 * E * Ix / (kx * L ^ 2) / area)
      (Real.pi ^ 2 * E * Iy / (ky * L ^ 2) / area) < 0) := not_lt.mpr hr
  have ht0 : (0 : ℝ) ≤ Real.sqrt (fy / min (Real.pi ^ 2 * E * Ix / (kx * L ^ 2) / area)
      (Real.pi ^ 2 * E * Iy / (ky * L ^ 2) / area)) ^ (2 * n) :=
    Real.rpow_nonneg (Real.sqrt_nonneg _) _
  have hbase : ¬((1 + Real.sqrt (fy / min (Real.pi ^ 2 * E * Ix / (kx * L ^ 2) / area)
      (Real.pi ^ 2 * E * Iy / (ky * L ^ 2) / area)) ^ (2 * n)) = 0 ∧ -1 / n < 0) := by
    intro hcon
    have := hcon.1
    linarith
  simp [factored_axial_capacityE, factored_axial_capacity, eulerbucklingloadE,
    divE, pySqrtE, pyPowE, eulerbucklingload,
    hx, hy, ha, hFe, hr2, hn, hzn, hbase,
    except_ok_bind, except_error_bind, except_map_ok, except_map_error]

/-- On a sweep whose heights are all positive (0 < min_height and a
positive step) over a section with positive area, moments, and modulus and
nonnegative yield stress, the Python sweep raises nothing and returns the
heights paired with the total-model capacities at phi = 0.9, n = 1.34. -/
theorem column_pr_over_height_range_ok (m M i : ℤ) (tag : String)
    (area i_x i_y E fy : ℝ) (hm : 0 < m) (hi : 0 < i)
    (hA : 0 < area) (hIx : 0 < i_x) (hIy : 0 < i_y) (hE : 0 < E)
    (hfy : 0 ≤ fy) :
    column_pr_over_height_range m M i tag area i_x i_y E fy
      = Except.ok (pyRangePos m M i,
          (pyRangePos m M i).map (fun (x : ℤ) =>
            factored_axial_capacity area i_x i_y 1 1 (x : ℝ) E fy 1.34 0.9)) := by
  have hall : ∀ x ∈ pyRangePos m M i,
      SteelColumn.factored_axial_capacityE
        (SteelColumn.mk (Column.mk (x : ℝ) area i_x i_y 1 1 E)
          tag fy (Load.mk 0 0 0 0 0) 0.9) 1.34
      = Except.ok (factored_axial_capacity area i_x i_y 1 1 (x : ℝ) E fy 1.34 0.9) := by
    intro x hx
    rcases (pyRangePos_mem m M i x hi).mp hx with ⟨j, hxe, hlt⟩
    have hji : (0 : ℤ) ≤ (j : ℤ) * i := mul_nonneg (Int.natCast_nonneg j) hi.le
    have hxpos : (0 : ℤ) < x := by
      rw [hxe]
      linarith
    have hxR : (0 : ℝ) < (x : ℝ) := by exact_mod_cast hxpos
    have hFe0 : 0 < min (Real.pi ^ 2 * E * i_x / (1 * (x : ℝ) ^ 2) / area)
        (Real.pi ^ 2 * E * i_y / (1 * (x : ℝ) ^ 2) / area) := by
      apply lt_min <;> positivity
    show StructuralColumns.factored_axial_capacityE area i_x i_y 1 1 (x : ℝ) E fy 1.34 0.9
        = Except.ok (factored_axial_capacity area i_x i_y 1 1 (x : ℝ) E fy 1.34 0.9)
    exact factored_axial_capacityE_ok area i_x i_y 1 1 (x : ℝ) E fy 1.34 0.9
      hA.ne' one_ne_zero one_ne_zero hxR.ne' hFe0.ne'
      (div_nonneg hfy hFe0.le) (by norm_num)
      (fun hcon => absurd hcon.2 (by norm_num))
  simp only [column_pr_over_height_range]
  rw [except_mapM_ok _ _ _ hall]
  rfl

/-! Claim theorems. -/

/-- Claim C2: for every Load, max_factored_load (used by
SteelColumn.factored_axial_load) is exactly the maximum of the four factored
combinations 1.4 D, 1.25 D + 1.5 L, 1.25 D + 1.5 L + 1.0 S and
1.25 D + 1.5 S + 1.0 L: it is one of them and bounds each of them; the W and
E components never affect the result. -/
theorem C2_max_factored_load (load : Load) :
    (max_factored_load load ∈ factored_load_list load)
    ∧ (∀ x ∈ factored_load_list load, x ≤ max_factored_load load)
    ∧ (∀ w e : ℝ,
        max_factored_load (Load.mk load.D load.L load.S w e)
          = max_factored_load load)
    ∧ (∀ self : SteelColumn,
        self.factored_axial_load = max_factored_load self.axial_loads) := by
  have hm : max_factored_load load
      = max (max (max (1.4 * load.D) (1.25 * load.D + 1.5 * load.L))
          (1.25 * load.D + 1.5 * load.L + 1.0 * load.S))
          (1.25 * load.D + 1.5 * load.S + 1.0 * load.L) := rfl
  refine ⟨?_, ?_, fun w e => rfl, fun self => rfl⟩
  · rw [hm]
    simp only [factored_load_list, List.mem_cons, List.not_mem_nil, or_false]
    rcases max_choice (max (max (1.4 * load.D) (1.25 * load.D + 1.5 * load.L))
        (1.25 * load.D + 1.5 * load.L + 1.0 * load.S))
        (1.25 * load.D + 1.5 * load.S + 1.0 * load.L) with h4 | h4 <;> rw [h4]
    · rcases max_choice (max (1.4 * load.D) (1.25 * load.D + 1.5 * load.L))
          (1.25 * load.D + 1.5 * load.L + 1.0 * load.S) with h3 | h3 <;> rw [h3]
      · rcases max_choice (1.4 * load.D) (1.25 * load.D + 1.5 * load.L) with h2 | h2 <;>
          rw [h2] <;> tauto
      · tauto
    · tauto
  · intro x hx
    rw [hm]
    simp only [factored_load_list, List.mem_cons, List.not_mem_nil, or_false] at hx
    rcases hx with rfl | rfl | rfl | rfl <;> simp [le_max_iff, le_refl]

/-- Witness for C2 at the load D = 1, L = 2, S = 3, W = 4, E = 5: one of
the four combinations is bounded by the returned maximum, and zeroing the
wind and earthquake components does not change the result. -/
theorem C2_max_factored_load_witness :
    (1.25 * (1 : ℝ) + 1.5 * 2 ≤ max_factored_load (Load.mk 1 2 3 4 5))
    ∧ max_factored_load (Load.mk 1 2 3 4 5) = max_factored_load (Load.mk 1 2 3 0 0) :=
  ⟨(C2_max_factored_load (Load.mk 1 2 3 4 5)).2.1
      (1.25 * (1 : ℝ) + 1.5 * 2) (by simp [factored_load_list]),
   (C2_max_factored_load (Load.mk 1 2 3 0 0)).2.2.1 4 5⟩

/-- Claim C8: for a Column with positive fields, radius_of_gyration about x
is sqrt(Ix/area) and euler_buckling_load about x is
pi^2 E Ix / (kx height^2), symmetrically about y, and the axis label is
matched case-insensitively (any label whose lowercasing is "x" or "y"). -/
theorem C8_axis_dispatch (col : Column)
    (hA : 0 < col.area) (hIx : 0 < col.Ix) (hIy : 0 < col.Iy)
    (hkx : 0 < col.kx) (hky : 0 < col.ky) (hh : 0 < col.height)
    (hE : 0 < col.E) :
    (∀ axis : String, pyLower axis = "x" →
      col.radius_of_gyration axis = some (Real.sqrt (col.Ix / col.area)) ∧
      col.euler_buckling_load axis
        = some (Real.pi ^ 2 * col.E * col.Ix / (col.kx * col.height ^ 2)))
    ∧ (∀ axis : String, pyLower axis = "y" →
      col.radius_of_gyration axis = some (Real.sqrt (col.Iy / col.area)) ∧
      col.euler_buckling_load axis
        = some (Real.pi ^ 2 * col.E * col.Iy / (col.ky * col.height ^ 2))) := by
  constructor
  · intro axis hax
    constructor <;>
      simp [Column.radius_of_gyration, Column.euler_buckling_load,
        StructuralColumns.radius_of_gyration, eulerbucklingload, hax]
  · intro axis hax
    have hxy : pyLower axis ≠ "x" := by rw [hax]; decide
    constructor <;>
      simp [Column.radius_of_gyration, Column.euler_buckling_load,
        StructuralColumns.radius_of_gyration, eulerbucklingload, hax, hxy]

/-- Witness for C8 at the all-ones column with axis labels X and Y. -/
theorem C8_axis_dispatch_witness :
    (Column.mk 1 1 1 1 1 1 1).radius_of_gyration "X"
      = some (Real.sqrt ((1 : ℝ) / 1))
    ∧ (Column.mk 1 1 1 1 1 1 1).euler_buckling_load "Y"
      = some (Real.pi ^ 2 * 1 * 1 / (1 * (1 : ℝ) ^ 2)) :=
  ⟨((C8_axis_dispatch (Column.mk 1 1 1 1 1 1 1) (by norm_num) (by norm_num)
      (by norm_num) (by norm_num) (by norm_num) (by norm_num) (by norm_num)).1
      "X" (by decide)).1,
   ((C8_axis_dispatch (Column.mk 1 1 1 1 1 1 1) (by norm_num) (by norm_num)
      (by norm_num) (by norm_num) (by norm_num) (by norm_num) (by norm_num)).2
      "Y" (by decide)).2⟩

/-- Claim C9: for an axis label that lowercases to neither "x" nor "y", the
Column accessors return no value at all (the Python local is never bound):
modelled as none, with no error value produced. -/
theorem C9_invalid_axis (col : Column) (axis : String)
    (hx : pyLower axis ≠ "x") (hy : pyLower axis ≠ "y") :
    col.radius_of_gyration axis = none
    ∧ col.euler_buckling_load axis = none := by
  constructor <;>
    simp [Column.radius_of_gyration, Column.euler_buckling_load, hx, hy]

/-- Witness for C9 at the all-ones column with axis label z. -/
theorem C9_invalid_axis_witness :
    (Column.mk 1 1 1 1 1 1 1).radius_of_gyration "z" = none
    ∧ (Column.mk 1 1 1 1 1 1 1).euler_buckling_load "z" = none :=
  C9_invalid_axis (Column.mk 1 1 1 1 1 1 1) "z" (by decide) (by decide)

/-- Counterexample to claim C1 as stated: at n = 0 (all other inputs 1)
every hypothesis of the claim holds (the second conjunct shows F_e is
nonzero), yet the program raises ZeroDivisionError from -1 / n on the final
line instead of returning the formula value, so not every numeric n is
accepted. -/
theorem C1_counterexample :
    factored_axial_capacityE 1 1 1 1 1 1 1 1 0 1
      = Except.error "ZeroDivisionError"
    ∧ min (Real.pi ^ 2 * 1 * 1 / (1 * (1 : ℝ) ^ 2) / 1)
        (Real.pi ^ 2 * 1 * 1 / (1 * (1 : ℝ) ^ 2) / 1) ≠ 0 := by
  constructor
  · have h2 : ¬(((Real.pi ^ 2 : ℝ))⁻¹ < 0) := by
      rw [not_lt]
      positivity
    simp [factored_axial_capacityE, eulerbucklingloadE, divE, pySqrtE, pyPowE,
      Real.pi_ne_zero, h2,
      except_ok_bind, except_error_bind, except_map_ok, except_map_error]
  · simp only [min_self]
    positivity

/-- Claim C1 (amended: beyond area, kx, ky, L and F_e nonzero, the final
line of the source additionally requires n nonzero, a nonnegative sqrt
argument fy / F_e, and not both lambda = 0 and 2 n negative; at n = 0 the
program raises ZeroDivisionError and for fy / F_e < 0 it raises ValueError
rather than validating them): under these conditions the capacity
computation succeeds and returns phi * area * fy * (1 + lambda^(2n))^(-1/n)
with P_Ex = pi^2 E Ix/(kx L^2), F_ex = P_Ex/area (likewise about y),
F_e the minimum of the two axis stresses, and lambda = sqrt(fy/F_e). -/
theorem C1_capacity_formula (area Ix Iy kx ky L E fy n phi : ℝ)
    (ha : area ≠ 0) (hkx : kx ≠ 0) (hky : ky ≠ 0) (hL : L ≠ 0)
    (hFe : min (Real.pi ^ 2 * E * Ix / (kx * L ^ 2) / area)
               (Real.pi ^ 2 * E * Iy / (ky * L ^ 2) / area) ≠ 0)
    (hn : n ≠ 0)
    (hr : 0 ≤ fy / min (Real.pi ^ 2 * E * Ix / (kx * L ^ 2) / area)
               (Real.pi ^ 2 * E * Iy / (ky * L ^ 2) / area))
    (hzn : ¬(Real.sqrt (fy / min (Real.pi ^ 2 * E * Ix / (kx * L ^ 2) / area)
               (Real.pi ^ 2 * E * Iy / (ky * L ^ 2) / area)) = 0 ∧ 2 * n < 0)) :
    factored_axial_capacityE area Ix Iy kx ky L E fy n phi =
      Except.ok (phi * area * fy *
        ((1 + Real.sqrt (fy /
            min (Real.pi ^ 2 * E * Ix / (kx * L ^ 2) / area)
                (Real.pi ^ 2 * E * Iy / (ky * L ^ 2) / area)) ^ (2 * n)) ^ (-1 / n))) := by
  rw [factored_axial_capacityE_ok area Ix Iy kx ky L E fy n phi
    ha hkx hky hL hFe hr hn hzn]
  rfl

/-- Witness for C1 at the all-ones input. -/
theorem C1_capacity_formula_witness :
    factored_axial_capacityE 1 1 1 1 1 1 1 1 1 1 =
      Except.ok ((1 : ℝ) * 1 * 1 *
        ((1 + Real.sqrt ((1 : ℝ) /
            min (Real.pi ^ 2 * 1 * 1 / (1 * (1 : ℝ) ^ 2) / 1)
                (Real.pi ^ 2 * 1 * 1 / (1 * (1 : ℝ) ^ 2) / 1)) ^ ((2 : ℝ) * 1)) ^ ((-1 : ℝ) / 1))) :=
  C1_capacity_formula 1 1 1 1 1 1 1 1 1 1 (by norm_num) (by norm_num)
    (by norm_num) (by norm_num)
    (by simp only [min_self]; positivity)
    (by norm_num)
    (by positivity)
    (fun hcon => absurd hcon.2 (by norm_num))

/-- Claim C6: the fallible versions raise ZeroDivisionError exactly as the
Python code does: eulerbucklingload fails when k = 0 or L = 0;
factored_axial_capacity fails whenever area = 0, and fails at the
slenderness division when the earlier steps succeed but the governing
elastic stress F_e is 0; an error raised inside eulerbucklingload
propagates out of factored_axial_capacity unchanged. -/
theorem C6_division_failures :
    (∀ E I k L : ℝ, k = 0 ∨ L = 0 →
      eulerbucklingloadE E I k L = Except.error "ZeroDivisionError")
    ∧ (∀ area Ix Iy kx ky L E fy n phi : ℝ, area = 0 →
      factored_axial_capacityE area Ix Iy kx ky L E fy n phi
        = Except.error "ZeroDivisionError")
    ∧ (∀ area Ix Iy kx ky L E fy n phi : ℝ, area ≠ 0 → kx ≠ 0 → ky ≠ 0 → L ≠ 0 →
      min (Real.pi ^ 2 * E * Ix / (kx * L ^ 2) / area)
          (Real.pi ^ 2 * E * Iy / (ky * L ^ 2) / area) = 0 →
      factored_axial_capacityE area Ix Iy kx ky L E fy n phi
        = Except.error "ZeroDivisionError")
    ∧ (∀ area Ix Iy kx ky L E fy n phi : ℝ, ∀ e : String,
      eulerbucklingloadE E Ix kx L = Except.error e →
      factored_axial_capacityE area Ix Iy kx ky L E fy n phi
        = Except.error e) := by
  refine ⟨?_, ?_, ?_, ?_⟩
  · intro E I k L h
    rcases h with rfl | rfl <;> norm_num [eulerbucklingloadE, divE]
  · intro area Ix Iy kx ky L E fy n phi ha
    subst ha
    by_cases hx : kx * L ^ 2 = 0
    · simp [factored_axial_capacityE, eulerbucklingloadE, divE, hx,
        except_ok_bind, except_error_bind, except_map_ok, except_map_error]
    · simp [factored_axial_capacityE, eulerbucklingloadE, divE, hx,
        except_ok_bind, except_error_bind, except_map_ok, except_map_error]
  · intro area Ix Iy kx ky L E fy n phi ha hkx hky hL hFe
    have hx : kx * L ^ 2 ≠ 0 := mul_ne_zero hkx (pow_ne_zero _ hL)
    have hy : ky * L ^ 2 ≠ 0 := mul_ne_zero hky (pow_ne_zero _ hL)
    simp [factored_axial_capacityE, eulerbucklingloadE, divE, hx, hy, ha, hFe,
      except_ok_bind, except_error_bind, except_map_ok, except_map_error]
  · intro area Ix Iy kx ky L E fy n phi e he
    simp [factored_axial_capacityE, he,
      except_ok_bind, except_error_bind, except_map_ok, except_map_error]

/-- Witness for C6: a zero effective-length factor, a zero area, a zero
elastic modulus (making F_e zero), and propagation of the x-axis buckling
error through the capacity computation. -/
theorem C6_division_failures_witness :
    eulerbucklingloadE 1 1 0 1 = Except.error "ZeroDivisionError"
    ∧ factored_axial_capacityE 0 1 1 1 1 1 1 1 1 1
        = Except.error "ZeroDivisionError"
    ∧ factored_axial_capacityE 1 1 1 1 1 1 0 1 1 1
        = Except.error "ZeroDivisionError"
    ∧ factored_axial_capacityE 1 1 1 0 1 1 1 1 1 1
        = Except.error "ZeroDivisionError" :=
  ⟨C6_division_failures.1 1 1 0 1 (Or.inl rfl),
   C6_division_failures.2.1 0 1 1 1 1 1 1 1 1 1 rfl,
   C6_division_failures.2.2.1 1 1 1 1 1 1 0 1 1 1 (by norm_num) (by norm_num)
     (by norm_num) (by norm_num) (by norm_num),
   C6_division_failures.2.2.2 1 1 1 0 1 1 1 1 1 1 "ZeroDivisionError"
     (by norm_num [eulerbucklingloadE, divE])⟩

/-- Claim C7: whenever the capacity computation succeeds with a nonzero
value c, factored_dcr returns factored_axial_load divided by c; when it
succeeds with the value 0, the final division raises ZeroDivisionError. -/
theorem C7_factored_dcr (col : SteelColumn) (n c : ℝ) :
    (col.factored_axial_capacityE n = Except.ok c → c ≠ 0 →
      col.factored_dcrE n = Except.ok (col.factored_axial_load / c))
    ∧ (col.factored_axial_capacityE n = Except.ok 0 →
      col.factored_dcrE n = Except.error "ZeroDivisionError") := by
  constructor
  · intro hc hc0
    simp [SteelColumn.factored_dcrE, hc, divE, hc0,
      except_ok_bind, except_error_bind, except_map_ok, except_map_error]
  · intro hc
    simp [SteelColumn.factored_dcrE, hc, divE,
      except_ok_bind, except_error_bind, except_map_ok, except_map_error]

/-- Witness for C7: an all-ones steel column (nonzero capacity, computed by
the program at the default phi = 0.9 regardless of the phi field being 1)
and the same column with a zero yield stress (zero capacity). -/
theorem C7_factored_dcr_witness :
    (SteelColumn.mk (Column.mk 1 1 1 1 1 1 1) "W" 1 (Load.mk 1 1 1 1 1) 1).factored_dcrE 1
      = Except.ok
        ((SteelColumn.mk (Column.mk 1 1 1 1 1 1 1) "W" 1 (Load.mk 1 1 1 1 1) 1).factored_axial_load
          / factored_axial_capacity 1 1 1 1 1 1 1 1 1 0.9)
    ∧ (SteelColumn.mk (Column.mk 1 1 1 1 1 1 1) "W0" 0 (Load.mk 1 1 1 1 1) 1).factored_dcrE 1
      = Except.error "ZeroDivisionError" :=
  ⟨(C7_factored_dcr (SteelColumn.mk (Column.mk 1 1 1 1 1 1 1) "W" 1 (Load.mk 1 1 1 1 1) 1)
      1 (factored_axial_capacity 1 1 1 1 1 1 1 1 1 0.9)).1
    (factored_axial_capacityE_ok 1 1 1 1 1 1 1 1 1 0.9
      (by norm_num) (by norm_num) (by norm_num) (by norm_num)
      (by simp only [min_self]; positivity)
      (by positivity)
      (by norm_num)
      (fun hcon => absurd hcon.2 (by norm_num)))
    (by simp only [factored_axial_capacity, eulerbucklingload]; positivity),
   (C7_factored_dcr (SteelColumn.mk (Column.mk 1 1 1 1 1 1 1) "W0" 0 (Load.mk 1 1 1 1 1) 1)
      1 0).2
    (by
      have h := factored_axial_capacityE_ok 1 1 1 1 1 1 1 0 1 0.9
        (by norm_num) (by norm_num) (by norm_num) (by norm_num)
        (by simp only [min_self]; positivity)
        (by simp [zero_div])
        (by norm_num)
        (fun hcon => absurd hcon.2 (by norm_num))
      have h0 : factored_axial_capacity 1 1 1 1 1 1 1 0 1 0.9 = 0 := by
        simp [factored_axial_capacity]
      show StructuralColumns.factored_axial_capacityE 1 1 1 1 1 1 1 0 1 0.9
          = Except.ok 0
      rw [h, h0])⟩

/-- The Euler buckling load is positive for positive inputs. -/
theorem eulerbucklingload_pos {E I k L : ℝ}
    (hE : 0 < E) (hI : 0 < I) (hk : 0 < k) (hL : 0 < L) :
    0 < eulerbucklingload E I k L := by
  unfold eulerbucklingload
  positivity

/-- The Euler buckling load does not increase when the length grows. -/
theorem eulerbucklingload_anti {E I k L1 L2 : ℝ}
    (hE : 0 < E) (hI : 0 < I) (hk : 0 < k) (hL1 : 0 < L1) (hle : L1 ≤ L2) :
    eulerbucklingload E I k L2 ≤ eulerbucklingload E I k L1 := by
  unfold eulerbucklingload
  exact div_le_div_of_nonneg_left (by positivity) (by positivity)
    (mul_le_mul_of_nonneg_left (pow_le_pow_left hL1.le hle 2) hk.le)

/-- Claim C5: with all section and material parameters held fixed at
positive values, the factored axial capacity is monotonically non-increasing
in the height L. -/
theorem C5_capacity_antitone (area Ix Iy kx ky E fy n phi L1 L2 : ℝ)
    (hA : 0 < area) (hIx : 0 < Ix) (hIy : 0 < Iy) (hkx : 0 < kx) (hky : 0 < ky)
    (hE : 0 < E) (hfy : 0 < fy) (hn : 0 < n) (hphi : 0 < phi)
    (hL1 : 0 < L1) (hle : L1 ≤ L2) :
    factored_axial_capacity area Ix Iy kx ky L2 E fy n phi ≤
      factored_axial_capacity area Ix Iy kx ky L1 E fy n phi := by
  have hL2 : 0 < L2 := lt_of_lt_of_le hL1 hle
  simp only [factored_axial_capacity]
  have h1 : eulerbucklingload E Ix kx L2 / area ≤ eulerbucklingload E Ix kx L1 / area := by
    gcongr
    exact eulerbucklingload_anti hE hIx hkx hL1 hle
  have h2 : eulerbucklingload E Iy ky L2 / area ≤ eulerbucklingload E Iy ky L1 / area := by
    gcongr
    exact eulerbucklingload_anti hE hIy hky hL1 hle
  have hpos2 : 0 < min (eulerbucklingload E Ix kx L2 / area) (eulerbucklingload E Iy ky L2 / area) :=
    lt_min (div_pos (eulerbucklingload_pos hE hIx hkx hL2) hA)
      (div_pos (eulerbucklingload_pos hE hIy hky hL2) hA)
  have hmin : min (eulerbucklingload E Ix kx L2 / area) (eulerbucklingload E Iy ky L2 / area)
      ≤ min (eulerbucklingload E Ix kx L1 / area) (eulerbucklingload E Iy ky L1 / area) :=
    min_le_min h1 h2
  have hdiv : fy / min (eulerbucklingload E Ix kx L1 / area) (eulerbucklingload E Iy ky L1 / area)
      ≤ fy / min (eulerbucklingload E Ix kx L2 / area) (eulerbucklingload E Iy ky L2 / area) := by
    gcongr
  have hsq := Real.sqrt_le_sqrt hdiv
  have hrp : Real.sqrt (fy / min (eulerbucklingload E Ix kx L1 / area) (eulerbucklingload E Iy ky L1 / area)) ^ (2 * n)
      ≤ Real.sqrt (fy / min (eulerbucklingload E Ix kx L2 / area) (eulerbucklingload E Iy ky L2 / area)) ^ (2 * n) :=
    Real.rpow_le_rpow (Real.sqrt_nonneg _) hsq (by positivity)
  have hbase : (0:ℝ) < 1 + Real.sqrt (fy / min (eulerbucklingload E Ix kx L1 / area) (eulerbucklingload E Iy ky L1 / area)) ^ (2 * n) := by
    positivity
  have hneg : (-1 : ℝ) / n ≤ 0 := by
    apply div_nonpos_of_nonpos_of_nonneg <;> [norm_num; exact hn.le]
  have hbase2 : 1 + Real.sqrt (fy / min (eulerbucklingload E Ix kx L1 / area) (eulerbucklingload E Iy ky L1 / area)) ^ (2 * n)
      ≤ 1 + Real.sqrt (fy / min (eulerbucklingload E Ix kx L2 / area) (eulerbucklingload E Iy ky L2 / area)) ^ (2 * n) := by
    linarith
  have hpow := Real.rpow_le_rpow_of_nonpos hbase hbase2 hneg
  exact mul_le_mul_of_nonneg_left hpow (by positivity)

/-- Witness for C5: the all-ones section at heights 1 and 2. -/
theorem C5_capacity_antitone_witness :
    factored_axial_capacity 1 1 1 1 1 2 1 1 1 1 ≤
      factored_axial_capacity 1 1 1 1 1 1 1 1 1 1 :=
  C5_capacity_antitone 1 1 1 1 1 1 1 1 1 1 2 (by norm_num) (by norm_num)
    (by norm_num) (by norm_num) (by norm_num) (by norm_num) (by norm_num)
    (by norm_num) (by norm_num) (by norm_num) (by norm_num)

/-- Claim C10: for positive inputs the factored axial capacity is strictly
between 0 and phi * area * fy, because the buckling reduction factor lies
strictly between 0 and 1. -/
theorem C10_capacity_bounds (area Ix Iy kx ky L E fy n phi : ℝ)
    (hA : 0 < area) (hIx : 0 < Ix) (hIy : 0 < Iy) (hkx : 0 < kx) (hky : 0 < ky)
    (hL : 0 < L) (hE : 0 < E) (hfy : 0 < fy) (hn : 0 < n) (hphi : 0 < phi) :
    0 < factored_axial_capacity area Ix Iy kx ky L E fy n phi
    ∧ factored_axial_capacity area Ix Iy kx ky L E fy n phi < phi * area * fy := by
  have hFe : 0 < min (eulerbucklingload E Ix kx L / area) (eulerbucklingload E Iy ky L / area) :=
    lt_min (div_pos (eulerbucklingload_pos hE hIx hkx hL) hA)
      (div_pos (eulerbucklingload_pos hE hIy hky hL) hA)
  have hlam : 0 < Real.sqrt (fy / min (eulerbucklingload E Ix kx L / area) (eulerbucklingload E Iy ky L / area)) :=
    Real.sqrt_pos.mpr (div_pos hfy hFe)
  have hrp : 0 < Real.sqrt (fy / min (eulerbucklingload E Ix kx L / area) (eulerbucklingload E Iy ky L / area)) ^ (2 * n) :=
    Real.rpow_pos_of_pos hlam _
  have h1 : 1 < 1 + Real.sqrt (fy / min (eulerbucklingload E Ix kx L / area) (eulerbucklingload E Iy ky L / area)) ^ (2 * n) := by
    linarith
  have hneg : (-1 : ℝ) / n < 0 :=
    div_neg_of_neg_of_pos (by norm_num) hn
  have hfac := Real.rpow_lt_one_of_one_lt_of_neg h1 hneg
  constructor
  · simp only [factored_axial_capacity]
    positivity
  · simp only [factored_axial_capacity]
    calc phi * area * fy * ((1 + Real.sqrt (fy / min (eulerbucklingload E Ix kx L / area) (eulerbucklingload E Iy ky L / area)) ^ (2 * n)) ^ (-1 / n))
        < phi * area * fy * 1 := by
          apply mul_lt_mul_of_pos_left hfac (by positivity)
      _ = phi * area * fy := mul_one _

/-- Witness for C10 at the all-ones input. -/
theorem C10_capacity_bounds_witness :
    0 < factored_axial_capacity 1 1 1 1 1 1 1 1 1 1
    ∧ factored_axial_capacity 1 1 1 1 1 1 1 1 1 1 < (1 : ℝ) * 1 * 1 :=
  C10_capacity_bounds 1 1 1 1 1 1 1 1 1 1 (by norm_num) (by norm_num)
    (by norm_num) (by norm_num) (by norm_num) (by norm_num) (by norm_num)
    (by norm_num) (by norm_num) (by norm_num)


/-- Counterexample to claim C3 as stated: with min_height = 5,
max_height = 3, interval = 1 the program completes (its loop body never
runs) and returns zero heights, while
ceil((max_height - min_height)/interval) = -2, so the claimed point count
is wrong when max_height < min_height. -/
theorem C3_counterexample :
    column_pr_over_height_range 5 3 1 "T" 1 1 1 1 1
      = Except.ok (([] : List ℤ), ([] : List ℝ))
    ∧ ⌈(((3 : ℤ) : ℚ) - ((5 : ℤ) : ℚ)) / (((1 : ℤ)) : ℚ)⌉ = -2 := by
  constructor
  · have h1 : pyRangePos 5 3 1 = [] := by
      rw [pyRangePos]
      norm_num
    simp [column_pr_over_height_range, h1, List.mapM.loop, pure, Except.pure,
      except_ok_bind, except_error_bind, except_map_ok, except_map_error]
  · rw [Int.ceil_eq_iff] <;> norm_num

/-- Claim C3 (amended: the point-count formula additionally needs
min_height ≤ max_height, and the sweep only returns at all when no height
triggers a division error, which 0 < min_height with positive area,
moments of inertia and modulus and nonnegative fy guarantees; when
max_height < min_height the sweep is empty): under these conditions the
call succeeds; the heights are the arithmetic progression
min_height + i * interval, containing exactly the terms strictly below
max_height, with exactly ceil((max_height - min_height)/interval) points,
none equal to max_height; and the resistances are factored_axial_capacity
with kx = ky = 1, n = 1.34 and phi = 0.9 at each height. -/
theorem C3_height_sweep (min_height max_height interval : ℤ) (tag : String)
    (area i_x i_y E fy : ℝ)
    (hint : 0 < interval) (hle : min_height ≤ max_height)
    (hmin : 0 < min_height) (hA : 0 < area) (hIx : 0 < i_x) (hIy : 0 < i_y)
    (hE : 0 < E) (hfy : 0 ≤ fy) :
    (column_pr_over_height_range min_height max_height interval tag area i_x i_y E fy
        = Except.ok (pyRangePos min_height max_height interval,
            (pyRangePos min_height max_height interval).map (fun (x : ℤ) =>
              factored_axial_capacity area i_x i_y 1 1 (x : ℝ) E fy 1.34 0.9)))
    ∧ (((pyRangePos min_height max_height interval).length : ℤ)
        = ⌈((max_height : ℚ) - (min_height : ℚ)) / (interval : ℚ)⌉)
    ∧ pyRangePos min_height max_height interval
        = (List.range (pyRangePos min_height max_height interval).length).map
            (fun (i : ℕ) => min_height + (i : ℤ) * interval)
    ∧ (∀ x : ℤ, x ∈ pyRangePos min_height max_height interval
        ↔ ∃ i : ℕ, x = min_height + (i : ℤ) * interval ∧ x < max_height)
    ∧ max_height ∉ pyRangePos min_height max_height interval := by
  refine ⟨column_pr_over_height_range_ok min_height max_height interval tag
      area i_x i_y E fy hmin hint hA hIx hIy hE hfy, ?_, ?_, ?_, ?_⟩
  · rw [pyRangePos_length _ _ _ hint]
    have hnum : (0 : ℚ) ≤ ((max_height : ℚ) - (min_height : ℚ)) / (interval : ℚ) := by
      apply div_nonneg
      · have : (min_height : ℚ) ≤ (max_height : ℚ) := by exact_mod_cast hle
        linarith
      · have : (0 : ℚ) < (interval : ℚ) := by exact_mod_cast hint
        linarith
    have h0 : 0 ≤ ⌈((max_height : ℚ) - (min_height : ℚ)) / (interval : ℚ)⌉ :=
      Int.ceil_nonneg hnum
    omega
  · exact pyRangePos_eq_map _ _ _ hint
  · intro x
    exact pyRangePos_mem _ _ _ x hint
  · intro hmem
    rcases (pyRangePos_mem _ _ _ _ hint).mp hmem with ⟨i, hx, hlt⟩
    exact absurd hlt (lt_irrefl _)

/-- Witness for C3 at the sweep from 1 to 4 with step 2 over an all-ones
section. -/
theorem C3_height_sweep_witness :
    (column_pr_over_height_range 1 4 2 "T" 1 1 1 1 1
        = Except.ok (pyRangePos 1 4 2,
            (pyRangePos 1 4 2).map (fun (x : ℤ) =>
              factored_axial_capacity 1 1 1 1 1 (x : ℝ) 1 1 1.34 0.9)))
    ∧ (4 : ℤ) ∉ pyRangePos 1 4 2 :=
  ⟨(C3_height_sweep 1 4 2 "T" 1 1 1 1 1 (by norm_num) (by norm_num)
      (by norm_num) (by norm_num) (by norm_num) (by norm_num) (by norm_num)
      (by norm_num)).1,
   (C3_height_sweep 1 4 2 "T" 1 1 1 1 1 (by norm_num) (by norm_num)
      (by norm_num) (by norm_num) (by norm_num) (by norm_num) (by norm_num)
      (by norm_num)).2.2.2.2⟩

/-- Counterexample to claim C4 as stated: at an input where the program
completes without errors (all heights and section parameters positive), the
returned dictionary is keyed by the lowercase labels a and b (as the source
docstring and the app consumer use), not by A and B. -/
theorem C4_counterexample :
    Except.map (fun r => r.map Prod.fst)
        (compare_two_columns 1 3 1 1 1 1 1 1 1 1 1 1 1)
      = Except.ok ["a", "b"]
    ∧ Except.map (fun r => r.map Prod.fst)
        (compare_two_columns 1 3 1 1 1 1 1 1 1 1 1 1 1)
      ≠ Except.ok ["A", "B"] := by
  have hs1 := column_pr_over_height_range_ok 1 3 1 "Column A" 1 1 1 1 1
    (by norm_num) (by norm_num) (by norm_num) (by norm_num) (by norm_num)
    (by norm_num) (by norm_num)
  have hs2 := column_pr_over_height_range_ok 1 3 1 "Column B" 1 1 1 1 1
    (by norm_num) (by norm_num) (by norm_num) (by norm_num) (by norm_num)
    (by norm_num) (by norm_num)
  constructor
  · simp [compare_two_columns, hs1, hs2, Except.map,
      except_ok_bind, except_error_bind, except_map_ok, except_map_error]
  · simp [compare_two_columns, hs1, hs2, Except.map,
      except_ok_bind, except_error_bind, except_map_ok, except_map_error]

/-- Claim C4 (amended: the keys are the lowercase labels "a" and "b", and
the dictionary is returned only when both sweeps complete, which positive
heights and section parameters guarantee): each entry is the sweep run on
its own parameter set alone, so the entry for one column does not depend on
the data of the other. -/
theorem C4_compare_two_columns (m M i : ℤ)
    (aa ixa iya Ea fya ab ixb iyb Eb fyb : ℝ)
    (hm : 0 < m) (hi : 0 < i)
    (hAa : 0 < aa) (hIxa : 0 < ixa) (hIya : 0 < iya) (hEa : 0 < Ea)
    (hfya : 0 ≤ fya)
    (hAb : 0 < ab) (hIxb : 0 < ixb) (hIyb : 0 < iyb) (hEb : 0 < Eb)
    (hfyb : 0 ≤ fyb) :
    compare_two_columns m M i aa ixa iya Ea fya ab ixb iyb Eb fyb
      = Except.ok
          [("a", (pyRangePos m M i, (pyRangePos m M i).map (fun (x : ℤ) =>
              factored_axial_capacity aa ixa iya 1 1 (x : ℝ) Ea fya 1.34 0.9))),
           ("b", (pyRangePos m M i, (pyRangePos m M i).map (fun (x : ℤ) =>
              factored_axial_capacity ab ixb iyb 1 1 (x : ℝ) Eb fyb 1.34 0.9)))] := by
  have hs1 := column_pr_over_height_range_ok m M i "Column A" aa ixa iya Ea fya
    hm hi hAa hIxa hIya hEa hfya
  have hs2 := column_pr_over_height_range_ok m M i "Column B" ab ixb iyb Eb fyb
    hm hi hAb hIxb hIyb hEb hfyb
  simp [compare_two_columns, hs1, hs2,
    except_ok_bind, except_error_bind, except_map_ok, except_map_error]

/-- Witness for C4 at the sweep from 1 to 3 with step 1, both columns
all-ones. -/
theorem C4_compare_two_columns_witness :
    compare_two_columns 1 3 1 1 1 1 1 1 1 1 1 1 1
      = Except.ok
          [("a", (pyRangePos 1 3 1, (pyRangePos 1 3 1).map (fun (x : ℤ) =>
              factored_axial_capacity 1 1 1 1 1 (x : ℝ) 1 1 1.34 0.9))),
           ("b", (pyRangePos 1 3 1, (pyRangePos 1 3 1).map (fun (x : ℤ) =>
              factored_axial_capacity 1 1 1 1 1 (x : ℝ) 1 1 1.34 0.9)))] :=
  C4_compare_two_columns 1 3 1 1 1 1 1 1 1 1 1 1 1 (by norm_num) (by norm_num)
    (by norm_num) (by norm_num) (by norm_num) (by norm_num) (by norm_num)
    (by norm_num) (by norm_num) (by norm_num) (by norm_num) (by norm_num)

end StructuralColumns
